import Mathlib

/-!
Verification development for the gostride client library (package `stride`).

The definitions below are shallow embeddings of the Go source:
* `scanLines` — the frame-scanner split function of `subscription.go`
  (identical in both source variants);
* the Subscription reconnect loop of `subscription.go` (`start`,
  `Stop`) together with a backoff-policy model;
* the Collector coordinator loop of `collector.go` (`start`,
  `flushEvents`, `makeRequest`, `Close`, `Collect`).

Bytes are modelled as natural numbers (the byte value), byte buffers as
`List Nat`.  Go slices distinguish `nil` from an empty slice, which the
`bufio.Scanner` driver relies on, so a split-function token is
`Option (List Nat)` with `none` standing for the `nil` token.
-/

/-- CR, the first byte of the frame delimiter `"\r\n"`. -/
def carriageReturn : Nat := 13

/-- LF, the second byte of the frame delimiter `"\r\n"`. -/
def lineFeed : Nat := 10

/-- Index of the first occurrence of the two-byte delimiter `"\r\n"`
(`bytes.Index(data, []byte(delimiter))` in the Go source), `none` when the
delimiter does not occur. -/
def indexCRLF : List Nat → Option Nat
  | 13 :: 10 :: _ => some 0
  | _ :: rest => (indexCRLF rest).map (· + 1)
  | [] => none

/-- `bytes.TrimLeft(data, "\n")`: drop every leading line-feed byte. -/
def trimLeftLF (data : List Nat) : List Nat :=
  data.dropWhile (· = lineFeed)

/-- `scanLines` from `subscription.go` (the same function appears verbatim in
the second source variant): the `bufio.Scanner` split function for the
Stride subscription wire format.  The result is `(advance, token)`; the Go
function's error result is always `nil` and is omitted. -/
def scanLines (data : List Nat) (atEOF : Bool) : Nat × Option (List Nat) :=
  if atEOF ∧ data = [] then (0, none)
  else
    match indexCRLF data with
    | some i => (i + 2, some (data.take i))
    | none =>
      if atEOF then
        let d := trimLeftLF data
        (d.length, some d)
      else (0, none)

/-- Drive `scanLines` the way `bufio.Scanner` does on a buffer that is
entirely in memory (`atEOF = true` on every call): collect the yielded
frames and the total number of bytes consumed.  `fuel` bounds the number
of scanner iterations. -/
def runScanner : Nat → List Nat → List (List Nat) × Nat
  | 0, _ => ([], 0)
  | fuel + 1, data =>
    match scanLines data true with
    | (adv, some tok) =>
      let rest := runScanner fuel (data.drop adv)
      (tok :: rest.1, adv + rest.2)
    | (_, none) => ([], 0)

/-! ## Subscription: error taxonomy, backoff, reconnect loop -/

/-- Error values of the package (`stride.go` / the shared declarations file). -/
inductive StrideError where
  | requestFailed
  | serverError
  | timeout
  | resourceMissing
  | invalidBody
  | invalidResponse
  | invalidAPIKey
deriving DecidableEq, Repr

/-- Modelled from the spec: the Backoff Policy (the Go code delegates to the
external `cenkalti/backoff` library, which is not part of this repository).
State of an exponential backoff with multiplier 2: the configured
`InitialInterval` and `MaxInterval` plus the current interval.  Durations are
modelled as natural numbers (nanoseconds). -/
structure BackoffState where
  initialInterval : Nat
  maxInterval : Nat
  currentInterval : Nat
deriving DecidableEq, Repr

/-- Modelled from the spec: `Reset()` returns the policy to its initial
state. -/
def BackoffState.reset (b : BackoffState) : BackoffState :=
  { b with currentInterval := b.initialInterval }

/-- Modelled from the spec: `NextBackOff()` yields the current delay and
doubles the current interval, capped at `MaxInterval` (multiplier 2; the
library's randomization and elapsed-time cut-off are outside the spec's
deterministic policy and are not modelled). -/
def BackoffState.nextBackOff (b : BackoffState) : Nat × BackoffState :=
  (b.currentInterval, { b with currentInterval := min (b.currentInterval * 2) b.maxInterval })

/-- Action taken by one iteration of the reconnect loop for a given HTTP
status code. -/
inductive LoopAction where
  | receiveAndReset
  | logAndBackoff
  | terminate (e : StrideError)
deriving DecidableEq, Repr

/-- The `switch resp.StatusCode` dispatch of `start` in `subscription.go`
(the same cases appear in the second source variant): 200 enters receive
mode and resets the backoff; 429, 500 and 504 log and back off; 404
terminates with `ErrResourceMissing`; everything else terminates with
`ErrServerError`. -/
def dispatchStatus (status : Nat) : LoopAction :=
  if status = 200 then .receiveAndReset
  else if status = 429 ∨ status = 500 ∨ status = 504 then .logAndBackoff
  else if status = 404 then .terminate .resourceMissing
  else .terminate .serverError

/-- Statuses the reconnect loop retries after a backoff delay. -/
def retryable (s : Nat) : Prop :=
  s = 429 ∨ s = 500 ∨ s = 504

instance (s : Nat) : Decidable (retryable s) := by
  unfold retryable; infer_instance

/-- State carried across iterations of `start` in `subscription.go`: the
backoff state, the `wait` local (a Go zero-initialized duration that is only
reassigned in the retryable branch), and two histories recorded for
verification: every duration slept at the bottom of the loop, and every
delay computed by `NextBackOff`. -/
structure SubLoopState where
  b : BackoffState
  wait : Nat
  sleeps : List Nat
  retryDelays : List Nat
deriving DecidableEq, Repr

/-- Loop state right after `start`'s prologue: a fresh backoff configured
with the subscription config's `InitialInterval` and `MaxInterval` and then
`Reset()`, and `var wait time.Duration` zero-initialized. -/
def initSubLoopState (i m : Nat) : SubLoopState :=
  { b := { initialInterval := i, maxInterval := m, currentInterval := i },
    wait := 0, sleeps := [], retryDelays := [] }

/-- The reconnect loop of `start` in `subscription.go`, driven by the list
of HTTP status codes of successive responses.  An exhausted script models
cancellation (`tomb.Dying`, returning `nil`); a terminal status returns the
corresponding error.  On 200 the loop runs `receive`, resets the backoff
and sleeps the stale `wait`; on a retryable status it computes the next
delay and sleeps it. -/
def runLoop : SubLoopState → List Nat → SubLoopState × Option StrideError
  | st, [] => (st, none)
  | st, status :: rest =>
    match dispatchStatus status with
    | .receiveAndReset =>
      runLoop { st with b := st.b.reset, sleeps := st.sleeps ++ [st.wait] } rest
    | .logAndBackoff =>
      let r := st.b.nextBackOff
      runLoop { b := r.2, wait := r.1, sleeps := st.sleeps ++ [r.1],
                retryDelays := st.retryDelays ++ [r.1] } rest
    | .terminate e => (st, some e)

/-- One HTTP request as built by `start` in `subscription.go` (method, URL
and Basic-auth credentials; the request is built once and reissued every
iteration). -/
structure HTTPRequest where
  method : String
  url : String
  authUser : String
  authPass : String
deriving DecidableEq, Repr

/-- Request built by `start` in `subscription.go`:
`fmt.Sprintf("%s/%s", s.config.Endpoint, s.path)` with
`req.SetBasicAuth(s.apiKey, "")`. -/
def subscribeRequest (endpoint path apiKey : String) : HTTPRequest :=
  { method := "GET", url := endpoint ++ "/" ++ path,
    authUser := apiKey, authPass := "" }

/-- Request built by `start` in the second source variant:
`fmt.Sprintf("%s%s/subscribe", s.config.Endpoint, s.path)` with
`req.SetBasicAuth(s.apiKey, "")`. -/
def subscribeRequestVariant (endpoint path apiKey : String) : HTTPRequest :=
  { method := "GET", url := endpoint ++ path ++ "/subscribe",
    authUser := apiKey, authPass := "" }

/-- Control state of a `Subscription` relevant to `Stop`: whether the tomb
has been killed, the terminal error recorded by the loop, and whether the
`Events` channel has been closed. -/
structure SubControl where
  dying : Bool
  terminalErr : Option StrideError
  eventsClosed : Bool
deriving DecidableEq, Repr

/-- Go `close(ch)` on a channel: `none` models the run-time panic
"close of closed channel". -/
def closeChannel (alreadyClosed : Bool) : Option Bool :=
  if alreadyClosed then none else some true

/-- `Stop` from `subscription.go`: `s.tomb.Kill(nil)`, `err := s.tomb.Wait()`
(the recorded terminal error), then an unconditional `close(s.Events)`.
`none` models a panic. -/
def stopSubscription (st : SubControl) : Option (SubControl × Option StrideError) :=
  let st1 : SubControl := { st with dying := true }
  match closeChannel st1.eventsClosed with
  | none => none
  | some _ => some ({ st1 with eventsClosed := true }, st1.terminalErr)

/-! ## Collector: buffer, flush tasks, limiter, shutdown

Events are JSON objects whose contents the Collector never inspects; they
are modelled as opaque tokens.  The buffer
`events map[string][]map[string]interface{}` is modelled as an association
list from stream name to the events accumulated for it. -/

/-- Opaque event payload (the Collector never looks inside an event). -/
abbrev Event := Nat

/-- `collectRequest` from `collector.go`: a stream name and the events of
one `Collect` call. -/
structure CollectRequest where
  stream : String
  events : List Event
deriving DecidableEq, Repr

/-- Snapshot of the per-stream event buffer handed to one flush task. -/
abbrev Batch := List (String × List Event)

/-- `events[req.stream] = append(events[req.stream], req.events...)`:
append events to a stream's entry, creating the entry if absent. -/
def appendToBuffer : Batch → String → List Event → Batch
  | [], stream, evs => [(stream, evs)]
  | (s, es) :: rest, stream, evs =>
    if s = stream then (s, es ++ evs) :: rest
    else (s, es) :: appendToBuffer rest stream evs

/-- `maxReqsInFlight` from `collector.go`: capacity of the `semaphone`
channel bounding concurrent flush requests. -/
def maxReqsInFlight : Nat := 1000

/-- State of a `Collector`: the live buffer and its aggregate count, the
number of limiter slots held (`semaphone` occupancy, which also counts the
`WaitGroup`), the batches of spawned flush tasks that have not yet
finished, the batches whose task has finished, the number of HTTP POSTs
issued (one per finished task), and whether `incoming` has been closed. -/
structure CollectorState where
  buffer : Batch
  numBuffered : Nat
  inFlight : Nat
  pending : List Batch
  completed : List Batch
  requests : Nat
  incomingClosed : Bool
deriving DecidableEq, Repr

/-- State of a freshly constructed `Collector` (`NewCollector`). -/
def initCollector : CollectorState :=
  { buffer := [], numBuffered := 0, inFlight := 0, pending := [],
    completed := [], requests := 0, incomingClosed := false }

/-- `flushEvents` from `collector.go`'s `start`: acquire a limiter slot
(`c.semaphone <- true`, `c.wg.Add(1)`), hand the current buffer to a new
asynchronous task, then reset the buffer to empty and the count to zero. -/
def flushEvents (st : CollectorState) : CollectorState :=
  { st with inFlight := st.inFlight + 1,
            pending := st.pending ++ [st.buffer],
            buffer := [], numBuffered := 0 }

/-- The `case req, ok := <-c.incoming` arm of the coordinator loop: merge
the request into the buffer, bump the count, and flush immediately when the
count reaches `BatchSize`. -/
def handleIncoming (batchSize : Nat) (st : CollectorState) (req : CollectRequest) :
    CollectorState :=
  let merged := { st with buffer := appendToBuffer st.buffer req.stream req.events,
                          numBuffered := st.numBuffered + req.events.length }
  if batchSize ≤ merged.numBuffered then flushEvents merged else merged

/-- The `case <-tick.C` arm of the coordinator loop: flush only when the
buffer is non-empty. -/
def handleTick (st : CollectorState) : CollectorState :=
  if 0 < st.numBuffered then flushEvents st else st

/-- Outcome of one HTTP POST attempt by a flush task. -/
inductive HTTPOutcome where
  | transportError
  | status (code : Nat)
deriving DecidableEq, Repr

/-- `errorFromStatusCode` from the shared client file: 200 and 201 map to
no error, 404 to `ErrResourceMissing`, 504 to `ErrTimeout`, 400 to
`ErrInvalidBody`, 401 and 403 to `ErrInvalidAPIKey`, everything else to
`ErrServerError`. -/
def errorFromStatusCode (code : Nat) : Option StrideError :=
  if code = 200 ∨ code = 201 then none
  else if code = 404 then some .resourceMissing
  else if code = 504 then some .timeout
  else if code = 400 then some .invalidBody
  else if code = 401 ∨ code = 403 then some .invalidAPIKey
  else some .serverError

/-- Result of `makeRequest` from `collector.go` as a function of the HTTP
call's outcome: a transport error yields `ErrRequestFailed`; status 200
yields no error; any other status is logged and mapped through
`errorFromStatusCode`.  (The `json.Marshal` failure path cannot arise for
the opaque batches modelled here.) -/
def makeRequest (o : HTTPOutcome) : Option StrideError :=
  match o with
  | .transportError => some .requestFailed
  | .status c => if c = 200 then none else errorFromStatusCode c

/-- Outcomes the spec's failure policy is about: a transport error or a
non-2xx status. -/
def failedOutcome : HTTPOutcome → Prop
  | .transportError => True
  | .status c => c < 200 ∨ 300 ≤ c

instance (o : HTTPOutcome) : Decidable (failedOutcome o) := by
  unfold failedOutcome; cases o <;> infer_instance

/-- Completion of one spawned flush task (the goroutine body in
`flushEvents`): it issues one POST via `makeRequest`, discards the result
(`c.makeRequest(events)` ignores the returned error), then runs
`c.wg.Done()` and releases its limiter slot (`<-c.semaphone`).  No retry,
no re-enqueue: the batch simply moves to `completed`. -/
def completeTask (st : CollectorState) (o : HTTPOutcome) : CollectorState :=
  match st.pending with
  | [] => st
  | batch :: rest =>
    let _discarded := makeRequest o
    { st with pending := rest, completed := st.completed ++ [batch],
              requests := st.requests + 1, inFlight := st.inFlight - 1 }

/-- `for req := range c.incoming` in the shutdown arm: drain every queued
`collectRequest` into the buffer (no flushing while draining). -/
def drainIncoming : CollectorState → List CollectRequest → CollectorState
  | st, [] => st
  | st, req :: rest =>
    drainIncoming { st with buffer := appendToBuffer st.buffer req.stream req.events,
                            numBuffered := st.numBuffered + req.events.length } rest

/-- Run `n` task completions (`c.wg.Wait()` returns once every spawned
task has run to completion); `f` supplies the HTTP outcome of each
completion. -/
def completeTasksFuel : Nat → CollectorState → (Nat → HTTPOutcome) → CollectorState
  | 0, st, _ => st
  | n + 1, st, f => completeTasksFuel n (completeTask st (f n)) f

/-- `Close` from `collector.go` together with the `case <-c.tomb.Dying()`
arm it triggers: close the `incoming` channel, drain every queued request
into the buffer, perform one final flush when the buffer is non-empty, and
wait for every outstanding flush task to finish. -/
def closeCollector (st : CollectorState) (queued : List CollectRequest)
    (f : Nat → HTTPOutcome) : CollectorState :=
  let st1 := drainIncoming { st with incomingClosed := true } queued
  let st2 := if 0 < st1.numBuffered then flushEvents st1 else st1
  completeTasksFuel st2.pending.length st2 f

/-- `Collect` from `collector.go`: an unguarded send `c.incoming <- ...`.
`none` models the run-time panic "send on closed channel". -/
def sendIncoming (st : CollectorState) (req : CollectRequest) : Option CollectRequest :=
  if st.incomingClosed then none else some req

/-- Steps the Collector can take (coordinator-loop arms plus flush-task
completion).  A flush-spawning step is only enabled while a limiter slot is
free (`inFlight < maxReqsInFlight`): the acquire `c.semaphone <- true`
blocks otherwise. -/
inductive CollStep (batchSize : Nat) : CollectorState → CollectorState → Prop where
  | incoming (st : CollectorState) (req : CollectRequest)
      (h : st.numBuffered + req.events.length < batchSize) :
      CollStep batchSize st (handleIncoming batchSize st req)
  | incomingFlush (st : CollectorState) (req : CollectRequest)
      (hsz : batchSize ≤ st.numBuffered + req.events.length)
      (hcap : st.inFlight < maxReqsInFlight) :
      CollStep batchSize st (handleIncoming batchSize st req)
  | tickFlush (st : CollectorState) (hne : 0 < st.numBuffered)
      (hcap : st.inFlight < maxReqsInFlight) :
      CollStep batchSize st (handleTick st)
  | tickIdle (st : CollectorState) (hz : st.numBuffered = 0) :
      CollStep batchSize st (handleTick st)
  | complete (st : CollectorState) (o : HTTPOutcome) (hne : st.pending ≠ []) :
      CollStep batchSize st (completeTask st o)

/-- States a Collector with the given `BatchSize` can reach from
construction. -/
inductive CollReachable (batchSize : Nat) : CollectorState → Prop where
  | init : CollReachable batchSize initCollector
  | step {st st' : CollectorState} : CollReachable batchSize st →
      CollStep batchSize st st' → CollReachable batchSize st'

/-! ## Helper lemmas -/

lemma min_double (a M : Nat) : min (min a M * 2) M = min (a * 2) M := by
  rcases le_total a M with h | h
  · rw [Nat.min_eq_left h]
  · rw [Nat.min_eq_right h, Nat.min_eq_right (by omega : M ≤ M * 2),
        Nat.min_eq_right (by omega : M ≤ a * 2)]

lemma min_double_pow (c M k : Nat) :
    min (min (c * 2) M * 2 ^ k) M = min (c * 2 ^ (k + 1)) M := by
  have hp : 1 ≤ 2 ^ k := Nat.one_le_two_pow
  have hmul : ∀ x : Nat, x ≤ x * 2 ^ k := fun x => by
    calc x = x * 1 := by ring
    _ ≤ x * 2 ^ k := Nat.mul_le_mul_left x hp
  have he : c * 2 ^ (k + 1) = c * 2 * 2 ^ k := by ring
  rcases le_total (c * 2) M with h | h
  · rw [Nat.min_eq_left h, he]
  · rw [Nat.min_eq_right h, he, Nat.min_eq_right (hmul M),
        Nat.min_eq_right (le_trans h (hmul (c * 2)))]

lemma dispatchStatus_retryable {s : Nat} (h : retryable s) :
    dispatchStatus s = .logAndBackoff := by
  rcases h with h | h | h <;> subst h <;> decide

lemma runLoop_cons_retryable (st : SubLoopState) {s : Nat} (h : retryable s)
    (rest : List Nat) :
    runLoop st (s :: rest) =
      runLoop { b := st.b.nextBackOff.2, wait := st.b.nextBackOff.1,
                sleeps := st.sleeps ++ [st.b.nextBackOff.1],
                retryDelays := st.retryDelays ++ [st.b.nextBackOff.1] } rest := by
  simp only [runLoop, dispatchStatus_retryable h]

lemma runLoop_retryable_spec (script : List Nat) :
    ∀ st : SubLoopState, (∀ s ∈ script, retryable s) →
      st.b.currentInterval ≤ st.b.maxInterval →
      (runLoop st script).2 = none ∧
      (runLoop st script).1.b.initialInterval = st.b.initialInterval ∧
      (runLoop st script).1.b.maxInterval = st.b.maxInterval ∧
      (runLoop st script).1.b.currentInterval =
        min (st.b.currentInterval * 2 ^ script.length) st.b.maxInterval ∧
      (runLoop st script).1.retryDelays =
        st.retryDelays ++ (List.range script.length).map
          (fun k => min (st.b.currentInterval * 2 ^ k) st.b.maxInterval) := by
  induction script with
  | nil =>
    intro st _ hc
    simp [runLoop, Nat.min_eq_left hc]
  | cons s rest ih =>
    intro st hall hc
    have hs : retryable s := hall s (by simp)
    rw [runLoop_cons_retryable st hs rest]
    have h2 : (st.b.nextBackOff.2).currentInterval ≤ (st.b.nextBackOff.2).maxInterval := by
      simp [BackoffState.nextBackOff]
    obtain ⟨e1, e2, e3, e4, e5⟩ := ih
      { b := st.b.nextBackOff.2, wait := st.b.nextBackOff.1,
        sleeps := st.sleeps ++ [st.b.nextBackOff.1],
        retryDelays := st.retryDelays ++ [st.b.nextBackOff.1] }
      (fun t ht => hall t (by simp [ht])) h2
    have hfg : (fun k => min (min (st.b.currentInterval * 2) st.b.maxInterval * 2 ^ k)
          st.b.maxInterval)
        = ((fun k => min (st.b.currentInterval * 2 ^ k) st.b.maxInterval) ∘ Nat.succ) := by
      funext k
      exact min_double_pow st.b.currentInterval st.b.maxInterval k
    refine ⟨e1, by rw [e2]; simp [BackoffState.nextBackOff],
      by rw [e3]; simp [BackoffState.nextBackOff], ?_, ?_⟩
    · rw [e4]
      simp only [BackoffState.nextBackOff, List.length_cons]
      exact min_double_pow st.b.currentInterval st.b.maxInterval rest.length
    · rw [e5]
      simp only [BackoffState.nextBackOff, List.length_cons,
        List.range_succ_eq_map, List.map_cons, List.map_map, List.append_assoc,
        List.singleton_append, pow_zero, Nat.mul_one, Nat.min_eq_left hc, hfg]

lemma runLoop_append (xs ys : List Nat) :
    ∀ st : SubLoopState, (runLoop st xs).2 = none →
      runLoop st (xs ++ ys) = runLoop (runLoop st xs).1 ys := by
  induction xs with
  | nil => intro st _; rfl
  | cons x rest ih =>
    intro st h
    rcases hd : dispatchStatus x with _ | _ | e
    · simp only [List.cons_append, runLoop, hd] at h ⊢
      exact ih _ h
    · simp only [List.cons_append, runLoop, hd] at h ⊢
      exact ih _ h
    · simp only [runLoop, hd] at h
      exact absurd h (by simp)

lemma drainIncoming_spec (queued : List CollectRequest) :
    ∀ st : CollectorState,
      (drainIncoming st queued).numBuffered =
        st.numBuffered + (queued.map fun r => r.events.length).sum ∧
      (drainIncoming st queued).pending = st.pending ∧
      (drainIncoming st queued).completed = st.completed ∧
      (drainIncoming st queued).inFlight = st.inFlight ∧
      (drainIncoming st queued).requests = st.requests ∧
      (drainIncoming st queued).incomingClosed = st.incomingClosed := by
  induction queued with
  | nil => intro st; simp [drainIncoming]
  | cons r rest ih =>
    intro st
    simp only [drainIncoming, List.map_cons, List.sum_cons]
    obtain ⟨h1, h2, h3, h4, h5, h6⟩ :=
      ih { st with buffer := appendToBuffer st.buffer r.stream r.events,
                   numBuffered := st.numBuffered + r.events.length }
    exact ⟨by rw [h1]; exact Nat.add_assoc _ _ _, h2, h3, h4, h5, h6⟩

lemma completeTasksFuel_spec (f : Nat → HTTPOutcome) :
    ∀ (n : Nat) (st : CollectorState), st.pending.length = n →
      (completeTasksFuel n st f).pending = [] ∧
      (completeTasksFuel n st f).completed = st.completed ++ st.pending ∧
      (completeTasksFuel n st f).inFlight = st.inFlight - n ∧
      (completeTasksFuel n st f).requests = st.requests + n ∧
      (completeTasksFuel n st f).buffer = st.buffer ∧
      (completeTasksFuel n st f).numBuffered = st.numBuffered ∧
      (completeTasksFuel n st f).incomingClosed = st.incomingClosed := by
  intro n
  induction n with
  | zero =>
    intro st h
    rw [List.length_eq_zero] at h
    simp [completeTasksFuel, h]
  | succ m ih =>
    intro st h
    cases hp : st.pending with
    | nil => rw [hp] at h; simp at h
    | cons b rest =>
      have hlen : rest.length = m := by rw [hp] at h; simpa using h
      simp only [completeTasksFuel, completeTask, hp]
      obtain ⟨g1, g2, g3, g4, g5, g6, g7⟩ :=
        ih { st with pending := rest, completed := st.completed ++ [b],
                     requests := st.requests + 1, inFlight := st.inFlight - 1 } hlen
      refine ⟨g1, ?_, ?_, ?_, g5, g6, g7⟩
      · rw [g2]; simp
      · rw [g3]
        show st.inFlight - 1 - m = st.inFlight - (m + 1)
        omega
      · rw [g4]
        show st.requests + 1 + m = st.requests + (m + 1)
        omega

lemma closeCollector_incomingClosed (st : CollectorState)
    (queued : List CollectRequest) (f : Nat → HTTPOutcome) :
    (closeCollector st queued f).incomingClosed = true := by
  unfold closeCollector
  obtain ⟨-, -, -, -, -, hdrain⟩ :=
    drainIncoming_spec queued { st with incomingClosed := true }
  set st1 := drainIncoming { st with incomingClosed := true } queued
  set st2 := if 0 < st1.numBuffered then flushEvents st1 else st1
  have h2 : st2.incomingClosed = true := by
    simp only [st2]
    split
    · simpa [flushEvents] using hdrain
    · exact hdrain
  obtain ⟨-, -, -, -, -, -, hc⟩ := completeTasksFuel_spec f st2.pending.length st2 rfl
  rw [hc, h2]

/-! ## Claim theorems: Subscription -/

/-- C1 counterexample: status 502 is not retryable in the code — the
`switch` in `start` lists only 429, 500 and 504, so 502 falls through to
the `default` arm and terminates the loop with the generic server error. -/
theorem dispatch_502_terminates :
    dispatchStatus 502 = .terminate .serverError ∧
    dispatchStatus 502 ≠ .logAndBackoff ∧
    runLoop (initSubLoopState 1 4) [502] = (initSubLoopState 1 4, some .serverError) := by
  decide

/-- C1 (amended): the reconnect loop's dispatch table with retryable set
{429, 500, 504}: status 200 enters frame-receive mode, resets the backoff
and retries; each of 429, 500 and 504 computes a backoff delay and
retries; 404 terminates with the resource-missing terminal error; any
other status (502 included) terminates with the generic server error. -/
theorem subscription_dispatch_table (s : Nat)
    (h200 : s ≠ 200) (h429 : s ≠ 429) (h500 : s ≠ 500) (h504 : s ≠ 504)
    (h404 : s ≠ 404) :
    dispatchStatus 200 = .receiveAndReset ∧
    (∀ t, retryable t → dispatchStatus t = .logAndBackoff) ∧
    dispatchStatus 404 = .terminate .resourceMissing ∧
    dispatchStatus s = .terminate .serverError ∧
    (∀ st : SubLoopState, ∀ rest, runLoop st (200 :: rest) =
      runLoop { st with b := st.b.reset, sleeps := st.sleeps ++ [st.wait] } rest) ∧
    (∀ st : SubLoopState, ∀ rest, runLoop st (404 :: rest) = (st, some .resourceMissing)) ∧
    (∀ st : SubLoopState, ∀ rest, runLoop st (s :: rest) = (st, some .serverError)) := by
  have hds : dispatchStatus s = .terminate .serverError := by
    unfold dispatchStatus
    rw [if_neg h200, if_neg (by omega), if_neg h404]
  refine ⟨rfl, fun t ht => dispatchStatus_retryable ht, rfl, hds, ?_, ?_, ?_⟩
  · intro st rest; rfl
  · intro st rest; rfl
  · intro st rest; simp only [runLoop, hds]

theorem subscription_dispatch_table_witness :
    dispatchStatus 502 = LoopAction.terminate StrideError.serverError :=
  (subscription_dispatch_table 502 (by decide) (by decide) (by decide) (by decide)
    (by decide)).2.2.2.1

/-- C2 counterexample: at end-of-stream with no delimiter, `scanLines`
consumes only the length of the remainder after stripping leading
line-feeds, not the whole buffer: on input `"\nA"` it advances 1 byte,
while the claim requires the whole 2-byte buffer to be consumed. -/
theorem scanLines_eof_advance_counterexample :
    scanLines [10, 65] true = (1, some [65]) ∧
    (scanLines [10, 65] true).1 ≠ [10, 65].length ∧
    scanLines [10, 65] true ≠ ([10, 65].length, some [65]) := by
  decide

/-- C2 (amended): the frame-scanner split function satisfies: (1) an empty
buffer at end-of-stream yields no frame; (2) if the delimiter CR LF first
occurs at offset `i`, it consumes `i + 2` bytes and yields `buffer[0:i]`;
(3) at end-of-stream with no delimiter it yields the remaining bytes with
leading line-feeds stripped, consuming only the stripped remainder's
length (the whole buffer exactly when it has no leading line-feed);
(4) otherwise it consumes nothing and requests more input.  The two
concrete examples of the claim hold as stated. -/
theorem scanLines_spec (data : List Nat) (atEOF : Bool) :
    scanLines [] true = (0, none) ∧
    (∀ i, indexCRLF data = some i →
      scanLines data atEOF = (i + 2, some (data.take i))) ∧
    (indexCRLF data = none → data ≠ [] →
      scanLines data true = ((trimLeftLF data).length, some (trimLeftLF data))) ∧
    (indexCRLF data = none → scanLines data false = (0, none)) ∧
    runScanner 8 [65, 13, 10, 66, 13, 10, 67] = ([[65], [66], [67]], 7) ∧
    runScanner 8 [13, 10, 13, 10] = ([[], []], 4) := by
  refine ⟨rfl, ?_, ?_, ?_, by decide, by decide⟩
  · intro i hi
    have hne : data ≠ [] := by rintro rfl; simp [indexCRLF] at hi
    unfold scanLines
    rw [if_neg (by simp [hne]), hi]
  · intro hnone hne
    unfold scanLines
    rw [if_neg (by simp [hne]), hnone]
    rfl
  · intro hnone
    unfold scanLines
    rw [if_neg (by simp), hnone]
    rfl

theorem scanLines_spec_witness :
    indexCRLF [65, 13, 10] = some 1 ∧ scanLines [65, 13, 10] true = (3, some [65]) :=
  ⟨by decide, (scanLines_spec [65, 13, 10] true).2.1 1 (by decide)⟩

/-- C3: `Stop` closes `Events` unconditionally, so while the first call
does close the channel and return the recorded terminal error, a second
call on the already-stopped instance reaches `close(s.Events)` on a closed
channel and panics (`none`), contradicting the required safety of a second
`Stop`. -/
theorem stop_twice_panics :
    stopSubscription { dying := false, terminalErr := none, eventsClosed := false } =
      some ({ dying := true, terminalErr := none, eventsClosed := true }, none) ∧
    stopSubscription { dying := true, terminalErr := none, eventsClosed := true } = none := by
  decide

/-- C4: in a run whose every attempt fails with a retryable status, the
computed retry delays are `min (InitialInterval * 2 ^ k) MaxInterval`: the
sequence starts at `InitialInterval`, each next delay is the double of the
previous one capped at `MaxInterval`, no delay exceeds `MaxInterval`, and
after a successful (200) connection the next retryable failure's delay is
`InitialInterval` again. -/
theorem backoff_delay_sequence (i m r : Nat) (script : List Nat)
    (him : i ≤ m) (hall : ∀ s ∈ script, retryable s) (hr : retryable r) :
    ((runLoop (initSubLoopState i m) script).1.retryDelays =
      (List.range script.length).map fun k => min (i * 2 ^ k) m) ∧
    (0 < script.length →
      ((runLoop (initSubLoopState i m) script).1.retryDelays).head? = some i) ∧
    (∀ d ∈ (runLoop (initSubLoopState i m) script).1.retryDelays, d ≤ m) ∧
    (∀ k dk, ((runLoop (initSubLoopState i m) script).1.retryDelays)[k]? = some dk →
      ((runLoop (initSubLoopState i m) script).1.retryDelays)[k + 1]? = none ∨
      ((runLoop (initSubLoopState i m) script).1.retryDelays)[k + 1]? =
        some (min (dk * 2) m)) ∧
    ((runLoop (initSubLoopState i m) (script ++ [200, r])).1.retryDelays =
      (runLoop (initSubLoopState i m) script).1.retryDelays ++ [i]) := by
  obtain ⟨e1, e2, e3, e4, e5⟩ :=
    runLoop_retryable_spec script (initSubLoopState i m) hall him
  have hform : (runLoop (initSubLoopState i m) script).1.retryDelays =
      (List.range script.length).map fun k => min (i * 2 ^ k) m := by
    rw [e5]
    simp [initSubLoopState]
  refine ⟨hform, ?_, ?_, ?_, ?_⟩
  · intro hpos
    rw [hform]
    obtain ⟨n, hn⟩ : ∃ n, script.length = n + 1 := ⟨script.length - 1, by omega⟩
    rw [hn, List.range_succ_eq_map]
    simp [Nat.min_eq_left him]
  · intro d hd
    rw [hform] at hd
    obtain ⟨k, -, rfl⟩ := List.mem_map.mp hd
    exact min_le_right _ _
  · intro k dk hk
    rw [hform] at hk ⊢
    have hklen : k < ((List.range script.length).map fun k => min (i * 2 ^ k) m).length :=
      (List.getElem?_eq_some.mp hk).1
    rw [List.length_map, List.length_range] at hklen
    have hdk : dk = min (i * 2 ^ k) m := by
      rw [List.getElem?_map, List.getElem?_range hklen] at hk
      simpa using hk.symm
    by_cases hk1 : k + 1 < script.length
    · right
      rw [List.getElem?_map, List.getElem?_range hk1]
      simp only [Option.map_some']
      rw [hdk, min_double, pow_succ, ← Nat.mul_assoc]
    · left
      rw [List.getElem?_map]
      have hnone : (List.range script.length)[k + 1]? = none := by
        rw [List.getElem?_eq_none_iff, List.length_range]
        omega
      rw [hnone]
      rfl
  · have happ := runLoop_append script [200, r] (initSubLoopState i m) e1
    rw [happ]
    set st1 := (runLoop (initSubLoopState i m) script).1 with hst1
    have h1 : runLoop st1 [200, r] =
        runLoop { st1 with b := st1.b.reset, sleeps := st1.sleeps ++ [st1.wait] } [r] := rfl
    set st2 : SubLoopState :=
      { st1 with b := st1.b.reset, sleeps := st1.sleeps ++ [st1.wait] } with hst2
    have h2 : runLoop st2 [r] =
        runLoop { b := st2.b.nextBackOff.2, wait := st2.b.nextBackOff.1,
                  sleeps := st2.sleeps ++ [st2.b.nextBackOff.1],
                  retryDelays := st2.retryDelays ++ [st2.b.nextBackOff.1] } [] :=
      runLoop_cons_retryable st2 hr []
    rw [h1, h2]
    show st2.retryDelays ++ [st2.b.nextBackOff.1] = st1.retryDelays ++ [i]
    have hone : st2.b.nextBackOff.1 = st1.b.initialInterval := rfl
    rw [hone, e2]
    rfl

theorem backoff_delay_sequence_witness :
    (runLoop (initSubLoopState 1 4) [429, 500, 504, 429]).1.retryDelays = [1, 2, 4, 4] ∧
    (runLoop (initSubLoopState 1 4) ([429, 500, 504, 429] ++ [200, 429])).1.retryDelays =
      (runLoop (initSubLoopState 1 4) [429, 500, 504, 429]).1.retryDelays ++ [1] := by
  have h := backoff_delay_sequence 1 4 429 [429, 500, 504, 429] (by decide)
    (by decide) (by decide)
  exact ⟨by rw [h.1]; decide, h.2.2.2.2⟩

/-- C9 counterexample: `start` in `subscription.go` builds the URL as
`endpoint/path` with no `/subscribe` suffix (its path validator even
rejects paths containing `/subscribe`), so the claimed URL shape fails on
a concrete endpoint and path. -/
theorem subscribe_url_counterexample :
    (subscribeRequest "https://api.stride.com/v1" "collect/stream" "key").url =
      "https://api.stride.com/v1/collect/stream" ∧
    "https://api.stride.com/v1/collect/stream" ≠
      "https://api.stride.com/v1/collect/stream/subscribe" := by
  constructor
  · rfl
  · decide

/-- C9 (amended): every iteration of the reconnect loop issues the GET
request built once before the loop, with Basic auth using the API key as
username and an empty password; in `subscription.go` its URL is
`<endpoint>/<path>` (no `/subscribe` suffix), while in the second source
variant it is `<endpoint><path>/subscribe`. -/
theorem subscribe_request_spec (endpoint path apiKey : String) :
    (subscribeRequest endpoint path apiKey).method = "GET" ∧
    (subscribeRequest endpoint path apiKey).url = endpoint ++ "/" ++ path ∧
    (subscribeRequest endpoint path apiKey).authUser = apiKey ∧
    (subscribeRequest endpoint path apiKey).authPass = "" ∧
    (subscribeRequestVariant endpoint path apiKey).method = "GET" ∧
    (subscribeRequestVariant endpoint path apiKey).url = endpoint ++ path ++ "/subscribe" ∧
    (subscribeRequestVariant endpoint path apiKey).authUser = apiKey ∧
    (subscribeRequestVariant endpoint path apiKey).authPass = "" :=
  ⟨rfl, rfl, rfl, rfl, rfl, rfl, rfl, rfl⟩

/-! ## Claim theorems: Collector -/

lemma errorFromStatusCode_ne_none {c : Nat} (h200 : c ≠ 200) (h201 : c ≠ 201) :
    errorFromStatusCode c ≠ none := by
  unfold errorFromStatusCode
  rw [if_neg (by omega)]
  split
  · simp
  · split
    · simp
    · split
      · simp
      · split
        · simp
        · simp

/-- C5: whenever merging an incoming `collectRequest` makes the cumulative
buffered count reach or exceed `BatchSize`, the same loop iteration hands
the merged buffer to a flush task and leaves the buffer empty with a zero
count; below the threshold that iteration spawns no flush. -/
theorem batch_size_triggers_flush (batchSize : Nat) (st : CollectorState)
    (req : CollectRequest) :
    (batchSize ≤ st.numBuffered + req.events.length →
      (handleIncoming batchSize st req).pending =
        st.pending ++ [appendToBuffer st.buffer req.stream req.events] ∧
      (handleIncoming batchSize st req).buffer = [] ∧
      (handleIncoming batchSize st req).numBuffered = 0 ∧
      (handleIncoming batchSize st req).inFlight = st.inFlight + 1) ∧
    (st.numBuffered + req.events.length < batchSize →
      (handleIncoming batchSize st req).pending = st.pending ∧
      (handleIncoming batchSize st req).buffer =
        appendToBuffer st.buffer req.stream req.events ∧
      (handleIncoming batchSize st req).numBuffered =
        st.numBuffered + req.events.length) := by
  constructor
  · intro h
    simp only [handleIncoming]
    rw [if_pos h]
    exact ⟨rfl, rfl, rfl, rfl⟩
  · intro h
    simp only [handleIncoming]
    rw [if_neg (by omega)]
    exact ⟨rfl, rfl, rfl⟩

theorem batch_size_triggers_flush_witness :
    (handleIncoming 2 initCollector { stream := "s", events := [7, 8] }).buffer = [] ∧
    (handleIncoming 2 initCollector { stream := "s", events := [7, 8] }).numBuffered = 0 ∧
    (handleIncoming 2 initCollector { stream := "s", events := [7, 8] }).pending =
      [[("s", [7, 8])]] := by
  have h := (batch_size_triggers_flush 2 initCollector
    { stream := "s", events := [7, 8] }).1 (by decide)
  exact ⟨h.2.1, h.2.2.1, by rw [h.1]; decide⟩

/-- C6: `Close` drains every queued request into the buffer, spawns exactly
one final flush when and only when the drained buffer is non-empty, and
returns only once every outstanding flush task has completed: afterwards no
task is pending, the in-flight count is zero, every flushed batch has been
completed with exactly one HTTP request each, and the inbound channel is
closed so the instance can issue no further HTTP calls. -/
theorem close_graceful (st : CollectorState) (queued : List CollectRequest)
    (f : Nat → HTTPOutcome) (hInv : st.inFlight = st.pending.length) :
    (drainIncoming { st with incomingClosed := true } queued).numBuffered =
      st.numBuffered + (queued.map fun r => r.events.length).sum ∧
    (closeCollector st queued f).pending = [] ∧
    (closeCollector st queued f).inFlight = 0 ∧
    (closeCollector st queued f).completed =
      st.completed ++ st.pending ++
        (if 0 < (drainIncoming { st with incomingClosed := true } queued).numBuffered
         then [(drainIncoming { st with incomingClosed := true } queued).buffer] else []) ∧
    (closeCollector st queued f).requests =
      st.requests + st.pending.length +
        (if 0 < (drainIncoming { st with incomingClosed := true } queued).numBuffered
         then 1 else 0) ∧
    (closeCollector st queued f).incomingClosed = true := by
  obtain ⟨d1, d2, d3, d4, d5, d6⟩ :=
    drainIncoming_spec queued { st with incomingClosed := true }
  set st1 := drainIncoming { st with incomingClosed := true } queued with hst1
  set st2 := (if 0 < st1.numBuffered then flushEvents st1 else st1) with hst2
  have hclose : closeCollector st queued f = completeTasksFuel st2.pending.length st2 f := rfl
  obtain ⟨c1, c2, c3, c4, c5, c6, c7⟩ := completeTasksFuel_spec f st2.pending.length st2 rfl
  refine ⟨by rw [d1], ?_, ?_, ?_, ?_, ?_⟩
  · rw [hclose]
    exact c1
  · rw [hclose, c3]
    by_cases hb : 0 < st1.numBuffered
    · have h2 : st2 = flushEvents st1 := by rw [hst2, if_pos hb]
      have hl : st2.inFlight = st2.pending.length := by
        rw [h2]
        simp [flushEvents, d2, d4, hInv]
      omega
    · have h2 : st2 = st1 := by rw [hst2, if_neg hb]
      have hl : st2.inFlight = st2.pending.length := by
        rw [h2, d4, d2, hInv]
      omega
  · rw [hclose, c2]
    by_cases hb : 0 < st1.numBuffered
    · rw [if_pos hb]
      have h2 : st2 = flushEvents st1 := by rw [hst2, if_pos hb]
      rw [h2]
      simp [flushEvents, d2, d3, List.append_assoc]
    · rw [if_neg hb]
      have h2 : st2 = st1 := by rw [hst2, if_neg hb]
      rw [h2, d3, d2]
      simp
  · rw [hclose, c4]
    by_cases hb : 0 < st1.numBuffered
    · rw [if_pos hb]
      have h2 : st2 = flushEvents st1 := by rw [hst2, if_pos hb]
      rw [h2]
      simp only [flushEvents, d2, d5, List.length_append, List.length_cons,
        List.length_nil]
      omega
    · rw [if_neg hb]
      have h2 : st2 = st1 := by rw [hst2, if_neg hb]
      rw [h2, d5, d2]
      simp
  · rw [hclose, c7]
    by_cases hb : 0 < st1.numBuffered
    · have h2 : st2 = flushEvents st1 := by rw [hst2, if_pos hb]
      rw [h2]
      simpa [flushEvents] using d6
    · have h2 : st2 = st1 := by rw [hst2, if_neg hb]
      rw [h2]
      exact d6

theorem close_graceful_witness :
    (closeCollector initCollector [{ stream := "s", events := [1, 2] }]
      (fun _ => HTTPOutcome.status 200)).pending = [] ∧
    (closeCollector initCollector [{ stream := "s", events := [1, 2] }]
      (fun _ => HTTPOutcome.status 200)).inFlight = 0 := by
  have h := close_graceful initCollector [{ stream := "s", events := [1, 2] }]
    (fun _ => HTTPOutcome.status 200) (by decide)
  exact ⟨h.2.1, h.2.2.1⟩

/-- C7: in every reachable Collector state the number of concurrently
executing flush tasks is between 0 and `maxReqsInFlight` = 1000 and equals
the number of spawned-but-unfinished tasks; admission past the limiter
(`c.semaphone <- true`) increments it and is only enabled below the bound,
completion (`<-c.semaphone`) decrements it. -/
theorem inflight_bounded (batchSize : Nat) (st : CollectorState)
    (h : CollReachable batchSize st) :
    st.inFlight ≤ maxReqsInFlight ∧ st.inFlight = st.pending.length := by
  induction h with
  | init => exact ⟨by decide, rfl⟩
  | @step st1 st2 hr hs ih =>
    obtain ⟨ihb, ihe⟩ := ih
    cases hs with
    | incoming req hlt =>
      simp only [handleIncoming]
      rw [if_neg (by omega)]
      exact ⟨ihb, ihe⟩
    | incomingFlush req hsz hcap =>
      simp only [handleIncoming]
      rw [if_pos hsz]
      refine ⟨?_, ?_⟩
      · show st1.inFlight + 1 ≤ maxReqsInFlight
        omega
      · show st1.inFlight + 1 = _
        simp [flushEvents, ihe]
    | tickFlush hne hcap =>
      simp only [handleTick]
      rw [if_pos hne]
      refine ⟨?_, ?_⟩
      · show st1.inFlight + 1 ≤ maxReqsInFlight
        omega
      · show st1.inFlight + 1 = _
        simp [flushEvents, ihe]
    | tickIdle hz =>
      simp only [handleTick]
      rw [if_neg (by omega)]
      exact ⟨ihb, ihe⟩
    | complete o hne =>
      cases hp : st1.pending with
      | nil => exact absurd hp hne
      | cons b rest =>
        simp only [completeTask, hp]
        rw [hp] at ihe
        simp only [List.length_cons] at ihe
        refine ⟨by omega, ?_⟩
        show st1.inFlight - 1 = rest.length
        omega

theorem inflight_bounded_witness :
    initCollector.inFlight ≤ maxReqsInFlight ∧
    initCollector.inFlight = initCollector.pending.length :=
  inflight_bounded 5 initCollector CollReachable.init

/-- C8: a flush task whose HTTP call fails (transport error or non-2xx
status) produces an error value from `makeRequest`, but the Collector
discards it: the resulting state is the same as for any other outcome (no
retry, no propagation to `Collect` callers), the buffer is untouched (no
re-enqueue), and the task issues exactly one HTTP request. -/
theorem flush_failure_discarded (st : CollectorState) (o : HTTPOutcome)
    (h : failedOutcome o) :
    makeRequest o ≠ none ∧
    (completeTask st o).buffer = st.buffer ∧
    (completeTask st o).numBuffered = st.numBuffered ∧
    (∀ o2 : HTTPOutcome, completeTask st o = completeTask st o2) ∧
    (st.pending ≠ [] →
      (completeTask st o).requests = st.requests + 1 ∧
      (completeTask st o).pending.length + 1 = st.pending.length ∧
      (completeTask st o).completed = st.completed ++ st.pending.take 1) := by
  refine ⟨?_, ?_, ?_, ?_, ?_⟩
  · cases o with
    | transportError => simp [makeRequest]
    | status c =>
      simp only [failedOutcome] at h
      simp only [makeRequest]
      rw [if_neg (by omega)]
      exact errorFromStatusCode_ne_none (by omega) (by omega)
  · cases hp : st.pending <;> simp [completeTask, hp]
  · cases hp : st.pending <;> simp [completeTask, hp]
  · intro o2
    cases hp : st.pending <;> simp [completeTask, hp]
  · intro hne
    cases hp : st.pending with
    | nil => exact absurd hp hne
    | cons b rest =>
      refine ⟨?_, ?_, ?_⟩ <;> simp [completeTask, hp]

theorem flush_failure_discarded_witness :
    makeRequest (HTTPOutcome.status 500) ≠ none ∧
    (completeTask { buffer := [], numBuffered := 0, inFlight := 1,
                    pending := [[("s", [1])]], completed := [], requests := 0,
                    incomingClosed := false } (HTTPOutcome.status 500)).buffer = [] := by
  have h := flush_failure_discarded { buffer := [], numBuffered := 0, inFlight := 1,
                                      pending := [[("s", [1])]], completed := [],
                                      requests := 0, incomingClosed := false }
    (HTTPOutcome.status 500) (by decide)
  exact ⟨h.1, h.2.1.trans rfl⟩

/-- C10: `Close` closes the `incoming` channel, and `Collect` performs an
unguarded send on it, so any `Collect` call after `Close` has returned is
a send on a closed channel: a run-time panic (`none`), for every state,
queue content and flush outcome. -/
theorem collect_after_close_panics (st : CollectorState)
    (queued : List CollectRequest) (f : Nat → HTTPOutcome) (req : CollectRequest) :
    sendIncoming (closeCollector st queued f) req = none := by
  simp [sendIncoming, closeCollector_incomingClosed st queued f]
